import Mathlib

/-!
Verification of the prospector scoring/ranking/analytics core.

Shallow embedding of:
- `src/extractors/patterns.py` (signal tables and the three sub-score functions
  for each campaign),
- `src/scoring/ranker.py` (default weight triples and `Ranker.rank`),
- `src/server.py` (`_execute_pipeline` weight-override handling and `compute_pva`),
- `src/db.py` (`get_stats_summary` score-distribution bucketing).

Floats are modelled as exact rationals; Python dicts of known shape are modelled
as structures; `dict.get(k, d)` over the signal tables is modelled as
association-list lookup with a default.
-/

namespace Prospector

/-- Truthiness of the `raw_data` keys that scoring reads
(`_score_reachability` reads github_url / linkedin_url / website_url,
`_score_gaming_reachability` reads story_url / contact_role). -/
structure RawData where
  github_url : Bool
  linkedin_url : Bool
  website_url : Bool
  story_url : Bool
  contact_role : Bool
deriving DecidableEq, Repr

/-- The empty `raw_data` dict: every key lookup is falsy. -/
def RawData.empty : RawData := ⟨false, false, false, false, false⟩

/-- The `Prospect` dataclass of `src/adapters/base.py`. -/
structure Prospect where
  source : String
  username : String
  display_name : String
  profile_url : String
  bio : String
  category : String
  signals : List String
  raw_data : RawData
  trust_gap_score : ℚ
  reachability_score : ℚ
  relevance_score : ℚ
  final_score : ℚ
  outreach_message : String
  fetched_at : ℚ
deriving DecidableEq, Repr

/-- `TRUST_GAP_SIGNALS` from `src/extractors/patterns.py`. -/
def TRUST_GAP_SIGNALS : List (String × ℚ) :=
  [("no_company", 0.3), ("few_public_repos", 0.4), ("low_followers", 0.2),
   ("self_taught", 0.8), ("career_changer", 0.7), ("bootcamp_grad", 0.6),
   ("junior_level", 0.5), ("bio_mentions_looking_for", 0.3),
   ("bio_mentions_open_to", 0.3), ("bio_mentions_seeking", 0.3),
   ("bio_mentions_available", 0.2), ("bio_mentions_laid_off", 0.6),
   ("freelance_available", 0.5), ("build_in_public", 0.7),
   ("100_days_of_code", 0.6), ("ai_prompt_engineer", 0.8),
   ("indie_hacker", 0.5), ("web3", 0.4), ("wants_remote", 0.3)]

/-- `REACHABILITY_SIGNALS` from `src/extractors/patterns.py`. -/
def REACHABILITY_SIGNALS : List (String × ℚ) :=
  [("has_github", 0.3), ("has_linkedin", 0.4), ("has_website", 0.5),
   ("hireable_flag", 0.6), ("bio_mentions_open_to", 0.4),
   ("bio_mentions_available", 0.5), ("freelance_available", 0.5),
   ("build_in_public", 0.3)]

/-- `GAMING_INFLUENCE_SIGNALS` from `src/extractors/patterns.py`. -/
def GAMING_INFLUENCE_SIGNALS : List (String × ℚ) :=
  [("gaming_youtuber", 0.9), ("gaming_streamer", 0.8), ("gaming_reviewer", 0.8),
   ("gaming_blogger", 0.7), ("gaming_retro", 0.6), ("gaming_arcade", 0.7),
   ("gaming_browser", 0.8), ("gaming_indiedev", 0.5), ("has_game_repos", 0.3),
   ("active_in_gaming", 0.5), ("show_hn_poster", 0.4),
   ("high_engagement_post", 0.5), ("gaming_platform", 0.8),
   ("gaming_submission_target", 0.3), ("game_portal", 0.6),
   ("game_review_site", 0.7), ("game_aggregator", 0.5),
   ("gaming_community", 0.5)]

/-- `GAMING_REACHABILITY_SIGNALS` from `src/extractors/patterns.py`. -/
def GAMING_REACHABILITY_SIGNALS : List (String × ℚ) :=
  [("has_github", 0.3), ("has_website", 0.5), ("gaming_platform", 0.6),
   ("game_portal", 0.5), ("gaming_submission_target", 0.6),
   ("active_in_gaming", 0.3), ("gaming_youtuber", 0.5),
   ("gaming_streamer", 0.5), ("gaming_reviewer", 0.4),
   ("gaming_blogger", 0.4), ("show_hn_poster", 0.3)]

/-- `GAMING_RELEVANCE_CATEGORIES` from `src/extractors/patterns.py`. -/
def GAMING_RELEVANCE_CATEGORIES : List (String × ℚ) :=
  [("Gaming YouTuber", 0.95), ("Retro Gaming Streamer", 0.90),
   ("Game Reviewer", 0.90), ("Gaming Content Creator", 0.85),
   ("Browser Game Enthusiast", 0.85), ("Gaming Platform", 0.90),
   ("Retro Enthusiast", 0.80), ("Game Developer", 0.60),
   ("Indie Game Dev", 0.65), ("Game Jam Participant", 0.60)]

/-- `high_relevance_categories`, the local table of `_score_relevance`. -/
def HIGH_RELEVANCE_CATEGORIES : List (String × ℚ) :=
  [("Self-Taught Developer", 0.9), ("Career Changer", 0.85),
   ("Bootcamp Graduate", 0.8), ("Build in Public", 0.9),
   ("AI/Prompt Engineer", 0.95), ("100DaysOfCode", 0.85),
   ("Recently Laid Off", 0.7), ("Freelancer", 0.75),
   ("Junior Developer", 0.7), ("Job Seeker", 0.65),
   ("Senior Developer", 0.5), ("OSS Contributor", 0.7),
   ("Developer", 0.5), ("Startup Hiring", 0.6)]

/-- The accumulation loop `score = 0.0; for signal in signals: score +=
table.get(signal, default)` shared by the four signal-based sub-scores. -/
def sumSignals (table : List (String × ℚ)) (default : ℚ) (signals : List String) : ℚ :=
  signals.foldl (fun acc s => acc + ((table.lookup s).getD default)) 0

/-- `PatternExtractor._score_trust_gap`: unknown signals default to 0.1;
the sum is divided by 3.0 and clamped at 1.0. -/
def score_trust_gap (p : Prospect) : ℚ :=
  min (sumSignals TRUST_GAP_SIGNALS 0.1 p.signals / 3) 1

/-- `PatternExtractor._score_reachability`: unknown signals default to 0.0;
URL presence in `raw_data` adds fixed bonuses; the sum is divided by 2.0 and
clamped at 1.0. -/
def score_reachability (p : Prospect) : ℚ :=
  min ((sumSignals REACHABILITY_SIGNALS 0 p.signals
        + (if p.raw_data.github_url then 0.3 else 0)
        + (if p.raw_data.linkedin_url then 0.3 else 0)
        + (if p.raw_data.website_url then 0.2 else 0)) / 2) 1

/-- `PatternExtractor._score_relevance`: category lookup with default 0.5. -/
def score_relevance (p : Prospect) : ℚ :=
  (HIGH_RELEVANCE_CATEGORIES.lookup p.category).getD 0.5

/-- `PatternExtractor._score_gaming_influence`: unknown signals default to
0.05; divided by 2.5 and clamped at 1.0. -/
def score_gaming_influence (p : Prospect) : ℚ :=
  min (sumSignals GAMING_INFLUENCE_SIGNALS 0.05 p.signals / 2.5) 1

/-- `PatternExtractor._score_gaming_reachability`: unknown signals default to
0.0; `story_url` and `contact_role` raw-data bonuses; divided by 2.0,
clamped at 1.0. -/
def score_gaming_reachability (p : Prospect) : ℚ :=
  min ((sumSignals GAMING_REACHABILITY_SIGNALS 0 p.signals
        + (if p.raw_data.story_url then 0.2 else 0)
        + (if p.raw_data.contact_role then 0.4 else 0)) / 2) 1

/-- `PatternExtractor._score_gaming_relevance`: category lookup, default 0.5. -/
def score_gaming_relevance (p : Prospect) : ℚ :=
  (GAMING_RELEVANCE_CATEGORIES.lookup p.category).getD 0.5

/-- The per-prospect body of `PatternExtractor.extract`. -/
def extractOne (campaign : String) (p : Prospect) : Prospect :=
  if campaign = "openarcade" then
    { p with trust_gap_score := score_gaming_influence p,
             reachability_score := score_gaming_reachability p,
             relevance_score := score_gaming_relevance p }
  else
    { p with trust_gap_score := score_trust_gap p,
             reachability_score := score_reachability p,
             relevance_score := score_relevance p }

/-- `PatternExtractor.extract`. -/
def extract (campaign : String) (prospects : List Prospect) : List Prospect :=
  prospects.map (extractOne campaign)

/-- A weight triple, the shape of the `Ranker.weights` dict. -/
structure Weights where
  trust_gap : ℚ
  reachability : ℚ
  relevance : ℚ
deriving DecidableEq, Repr

/-- `MEMEX_WEIGHTS` from `src/scoring/ranker.py`. -/
def MEMEX_WEIGHTS : Weights := ⟨0.45, 0.25, 0.30⟩

/-- `OPENARCADE_WEIGHTS` from `src/scoring/ranker.py`. -/
def OPENARCADE_WEIGHTS : Weights := ⟨0.35, 0.30, 0.35⟩

/-- The weight-selection step at the top of `Ranker.rank`: the openarcade
defaults are substituted exactly when the campaign is "openarcade" and the
ranker's current weights compare equal (by value) to `MEMEX_WEIGHTS`. -/
def effectiveWeights (w : Weights) (campaign : String) : Weights :=
  if campaign = "openarcade" ∧ w = MEMEX_WEIGHTS then OPENARCADE_WEIGHTS else w

/-- The per-prospect assignment `p.final_score = tg*w1 + re*w2 + rel*w3`
inside `Ranker.rank`. -/
def assignFinal (w : Weights) (p : Prospect) : Prospect :=
  { p with final_score :=
      p.trust_gap_score * w.trust_gap
      + p.reachability_score * w.reachability
      + p.relevance_score * w.relevance }

/-- Comparison used by `prospects.sort(key=..., reverse=True)`: descending
final score.  Python sort is stable, modelled by `List.insertionSort`. -/
def rankRel (p q : Prospect) : Prop := q.final_score ≤ p.final_score

instance : DecidableRel rankRel := fun p q =>
  inferInstanceAs (Decidable (q.final_score ≤ p.final_score))

instance : IsTotal Prospect rankRel := ⟨fun p q => le_total q.final_score p.final_score⟩

instance : IsTrans Prospect rankRel :=
  ⟨fun _ _ _ h h' => le_trans h' h⟩

/-- `Ranker.rank` with the ranker's current weights `w`: assign final scores
with the effective weights, then stable-sort by descending final score. -/
def rank (w : Weights) (campaign : String) (prospects : List Prospect) : List Prospect :=
  (prospects.map (assignFinal (effectiveWeights w campaign))).insertionSort rankRel

/-- A partial weight override dict, as accepted by `_execute_pipeline`. -/
structure WeightOverrides where
  trust_gap : Option ℚ
  reachability : Option ℚ
  relevance : Option ℚ
deriving DecidableEq, Repr

/-- The empty (falsy) override dict. -/
def WeightOverrides.none : WeightOverrides := ⟨Option.none, Option.none, Option.none⟩

/-- `ranker.weights.update(weight_overrides)`: dict merge. -/
def updateWeights (w : Weights) (o : WeightOverrides) : Weights :=
  ⟨o.trust_gap.getD w.trust_gap, o.reachability.getD w.reachability,
   o.relevance.getD w.relevance⟩

/-- The scoring-relevant part of `_execute_pipeline` in `src/server.py`:
if the override dict is truthy it is merged into the module-level ranker's
weights (a persistent mutation), then extract and rank run with campaign
"memex" defaults.  Returns the ranked list and the ranker's weights after
the run. -/
def execute_pipeline (rankerWeights : Weights) (overrides : WeightOverrides)
    (prospects : List Prospect) : List Prospect × Weights :=
  let w := if overrides = WeightOverrides.none then rankerWeights
           else updateWeights rankerWeights overrides
  (rank w "memex" (extract "memex" prospects), w)

/-- A `{date, count}` entry of the daily-counts input to `compute_pva`. -/
structure DailyCount where
  date : String
  count : ℤ
deriving DecidableEq, Repr

/-- One entry of the `daily` output list of `compute_pva`. -/
structure DailyPVA where
  date : String
  value : ℤ
  cumulative : ℤ
  velocity : ℚ
  acceleration : ℚ
deriving DecidableEq, Repr

/-- The summary dict returned by `compute_pva`. -/
structure PVAResult where
  position : ℤ
  velocity : ℚ
  acceleration : ℚ
  daily : List DailyPVA
deriving DecidableEq, Repr

/-- Python 3 `round` to the nearest integer, half to even (banker's rounding),
on an exact rational. -/
def roundHalfEven (q : ℚ) : ℤ :=
  let f : ℤ := ⌊q⌋
  let r : ℚ := q - f
  if r < 1/2 then f
  else if 1/2 < r then f + 1
  else if f % 2 = 0 then f else f + 1

/-- Python `round(x, 2)` on an exact rational. -/
def pyRound2 (q : ℚ) : ℚ := (roundHalfEven (q * 100) : ℚ) / 100

/-- `sum(x["count"] for x in daily_counts[a:b])`: Python slice sum. -/
def sliceSum (counts : List ℤ) (a b : ℕ) : ℤ := ((counts.take b).drop a).sum

/-- The unrounded trailing-window velocity at index `i`:
`sum(counts[max(0,i-6):i+1]) / min(i+1, 7)` (natural subtraction models
`max(0, i-6)`). -/
def pvaVelocity (counts : List ℤ) (i : ℕ) : ℚ :=
  (sliceSum counts (i - 6) (i + 1) : ℚ) / (min (i + 1) 7 : ℕ)

/-- The unrounded prior-window velocity at index `i`: 0 when `i = 0`, else
`sum(counts[max(0,i-7):i]) / min(i, 7)`. -/
def pvaPrevVelocity (counts : List ℤ) (i : ℕ) : ℚ :=
  if 1 ≤ i then (sliceSum counts (i - 7) i : ℚ) / (min i 7 : ℕ) else 0

/-- One entry of the `result` list built by the loop in `compute_pva`. -/
def pvaEntry (dcs : List DailyCount) (i : ℕ) : DailyPVA :=
  let counts := dcs.map (·.count)
  let d := dcs.getD i ⟨"", 0⟩
  { date := d.date,
    value := d.count,
    cumulative := (counts.take (i + 1)).sum,
    velocity := pyRound2 (pvaVelocity counts i),
    acceleration := pyRound2 (pvaVelocity counts i - pvaPrevVelocity counts i) }

/-- `compute_pva` from `src/server.py`. -/
def compute_pva (daily_counts : List DailyCount) : PVAResult :=
  if daily_counts.isEmpty then ⟨0, 0, 0, []⟩
  else
    let daily := (List.range daily_counts.length).map (pvaEntry daily_counts)
    let last := daily.getLastD ⟨"", 0, 0, 0, 0⟩
    { position := (daily_counts.map (·.count)).sum,
      velocity := last.velocity,
      acceleration := last.acceleration,
      daily := daily }

/-- The `CASE` expression of the score-distribution query in
`db.get_stats_summary`. -/
def score_bucket (final_score : ℚ) : String :=
  if final_score < 0.2 then "0.0-0.2"
  else if final_score < 0.4 then "0.2-0.4"
  else if final_score < 0.6 then "0.4-0.6"
  else if final_score < 0.8 then "0.6-0.8"
  else "0.8-1.0"

/-- Modelled from the spec's words, for comparison with `score_bucket`:
five equal-width half-open buckets `[lo, hi)` over `[0,1)`, the last bucket
also containing exactly 1.0; `Option.none` outside `[0,1]`. -/
def score_bucket_spec (final_score : ℚ) : Option String :=
  if 0 ≤ final_score ∧ final_score < 0.2 then some "0.0-0.2"
  else if 0.2 ≤ final_score ∧ final_score < 0.4 then some "0.2-0.4"
  else if 0.4 ≤ final_score ∧ final_score < 0.6 then some "0.4-0.6"
  else if 0.6 ≤ final_score ∧ final_score < 0.8 then some "0.6-0.8"
  else if 0.8 ≤ final_score ∧ final_score ≤ 1 then some "0.8-1.0"
  else Option.none

/-- A candidate record as produced by an adapter, before scoring. -/
def mkProspect (signals : List String) (category : String) (raw : RawData) : Prospect :=
  { source := "src", username := "user", display_name := "User",
    profile_url := "https://example.test/user", bio := "", category := category,
    signals := signals, raw_data := raw, trust_gap_score := 0,
    reachability_score := 0, relevance_score := 0, final_score := 0,
    outreach_message := "", fetched_at := 0 }

/-! ### Helper lemmas -/

theorem sumSignals_shift (table : List (String × ℚ)) (d : ℚ) (l : List String)
    (a : ℚ) :
    l.foldl (fun acc s => acc + ((table.lookup s).getD d)) a
      = a + sumSignals table d l := by
  induction l generalizing a with
  | nil => simp [sumSignals]
  | cons s l ih =>
      simp only [sumSignals, List.foldl_cons, zero_add] at *
      rw [ih, ih ((table.lookup s).getD d)]
      ring

theorem sumSignals_cons (table : List (String × ℚ)) (d : ℚ) (s : String)
    (l : List String) :
    sumSignals table d (s :: l) = (table.lookup s).getD d + sumSignals table d l := by
  simpa [sumSignals] using sumSignals_shift table d l ((table.lookup s).getD d)

theorem lookup_getD_nonneg (table : List (String × ℚ)) (d : ℚ)
    (ht : ∀ x ∈ table, 0 ≤ x.2) (hd : 0 ≤ d) (s : String) :
    0 ≤ (table.lookup s).getD d := by
  induction table with
  | nil => simpa [List.lookup]
  | cons kv rest ih =>
      rcases kv with ⟨k, v⟩
      by_cases h : s == k
      · simpa [List.lookup, h] using ht (k, v) (List.mem_cons_self _ _)
      · simp only [List.lookup, h] at *
        exact ih (fun x hx => ht x (List.mem_cons_of_mem _ hx))

theorem sumSignals_nonneg (table : List (String × ℚ)) (d : ℚ) (l : List String)
    (ht : ∀ x ∈ table, 0 ≤ x.2) (hd : 0 ≤ d) :
    0 ≤ sumSignals table d l := by
  induction l with
  | nil => simp [sumSignals]
  | cons s l ih =>
      rw [sumSignals_cons]
      exact add_nonneg (lookup_getD_nonneg table d ht hd s) ih

theorem lookup_getD_bound (table : List (String × ℚ)) (d lo hi : ℚ)
    (ht : ∀ x ∈ table, lo ≤ x.2 ∧ x.2 ≤ hi) (hd : lo ≤ d ∧ d ≤ hi) (s : String) :
    lo ≤ (table.lookup s).getD d ∧ (table.lookup s).getD d ≤ hi := by
  induction table with
  | nil => simpa [List.lookup]
  | cons kv rest ih =>
      rcases kv with ⟨k, v⟩
      by_cases h : s == k
      · simpa [List.lookup, h] using ht (k, v) (List.mem_cons_self _ _)
      · simp only [List.lookup, h] at *
        exact ih (fun x hx => ht x (List.mem_cons_of_mem _ hx))

theorem trust_gap_table_nonneg : ∀ x ∈ TRUST_GAP_SIGNALS, (0 : ℚ) ≤ x.2 := by
  simp [TRUST_GAP_SIGNALS]; norm_num

theorem reachability_table_nonneg : ∀ x ∈ REACHABILITY_SIGNALS, (0 : ℚ) ≤ x.2 := by
  simp [REACHABILITY_SIGNALS]; norm_num

theorem gaming_influence_table_nonneg : ∀ x ∈ GAMING_INFLUENCE_SIGNALS, (0 : ℚ) ≤ x.2 := by
  simp [GAMING_INFLUENCE_SIGNALS]; norm_num

theorem gaming_reachability_table_nonneg : ∀ x ∈ GAMING_REACHABILITY_SIGNALS, (0 : ℚ) ≤ x.2 := by
  simp [GAMING_REACHABILITY_SIGNALS]; norm_num

theorem relevance_table_bound : ∀ x ∈ HIGH_RELEVANCE_CATEGORIES, (0 : ℚ) ≤ x.2 ∧ x.2 ≤ 1 := by
  simp [HIGH_RELEVANCE_CATEGORIES]; norm_num

theorem gaming_relevance_table_bound : ∀ x ∈ GAMING_RELEVANCE_CATEGORIES, (0 : ℚ) ≤ x.2 ∧ x.2 ≤ 1 := by
  simp [GAMING_RELEVANCE_CATEGORIES]; norm_num

theorem score_trust_gap_range (p : Prospect) :
    0 ≤ score_trust_gap p ∧ score_trust_gap p ≤ 1 := by
  unfold score_trust_gap
  refine ⟨le_min ?_ (by norm_num), min_le_right _ _⟩
  exact div_nonneg
    (sumSignals_nonneg _ _ _ trust_gap_table_nonneg (by norm_num)) (by norm_num)

theorem score_reachability_range (p : Prospect) :
    0 ≤ score_reachability p ∧ score_reachability p ≤ 1 := by
  unfold score_reachability
  refine ⟨le_min ?_ (by norm_num), min_le_right _ _⟩
  have h0 := sumSignals_nonneg REACHABILITY_SIGNALS 0 p.signals
    reachability_table_nonneg le_rfl
  have h1 : (0 : ℚ) ≤ if p.raw_data.github_url then 0.3 else 0 := by positivity
  have h2 : (0 : ℚ) ≤ if p.raw_data.linkedin_url then 0.3 else 0 := by positivity
  have h3 : (0 : ℚ) ≤ if p.raw_data.website_url then 0.2 else 0 := by positivity
  have := add_nonneg (add_nonneg (add_nonneg h0 h1) h2) h3
  linarith

theorem score_relevance_range (p : Prospect) :
    0 ≤ score_relevance p ∧ score_relevance p ≤ 1 := by
  unfold score_relevance
  exact lookup_getD_bound _ _ 0 1 relevance_table_bound (by norm_num) _

theorem score_gaming_influence_range (p : Prospect) :
    0 ≤ score_gaming_influence p ∧ score_gaming_influence p ≤ 1 := by
  unfold score_gaming_influence
  refine ⟨le_min ?_ (by norm_num), min_le_right _ _⟩
  exact div_nonneg
    (sumSignals_nonneg _ _ _ gaming_influence_table_nonneg (by norm_num)) (by norm_num)

theorem score_gaming_reachability_range (p : Prospect) :
    0 ≤ score_gaming_reachability p ∧ score_gaming_reachability p ≤ 1 := by
  unfold score_gaming_reachability
  refine ⟨le_min ?_ (by norm_num), min_le_right _ _⟩
  have h0 := sumSignals_nonneg GAMING_REACHABILITY_SIGNALS 0 p.signals
    gaming_reachability_table_nonneg le_rfl
  have h1 : (0 : ℚ) ≤ if p.raw_data.story_url then 0.2 else 0 := by positivity
  have h2 : (0 : ℚ) ≤ if p.raw_data.contact_role then 0.4 else 0 := by positivity
  have := add_nonneg (add_nonneg h0 h1) h2
  linarith

theorem score_gaming_relevance_range (p : Prospect) :
    0 ≤ score_gaming_relevance p ∧ score_gaming_relevance p ≤ 1 := by
  unfold score_gaming_relevance
  exact lookup_getD_bound _ _ 0 1 gaming_relevance_table_bound (by norm_num) _

theorem extractOne_trust_gap_range (campaign : String) (p : Prospect) :
    0 ≤ (extractOne campaign p).trust_gap_score
      ∧ (extractOne campaign p).trust_gap_score ≤ 1 := by
  unfold extractOne
  split
  · exact score_gaming_influence_range p
  · exact score_trust_gap_range p

theorem extractOne_reachability_range (campaign : String) (p : Prospect) :
    0 ≤ (extractOne campaign p).reachability_score
      ∧ (extractOne campaign p).reachability_score ≤ 1 := by
  unfold extractOne
  split
  · exact score_gaming_reachability_range p
  · exact score_reachability_range p

theorem extractOne_relevance_range (campaign : String) (p : Prospect) :
    0 ≤ (extractOne campaign p).relevance_score
      ∧ (extractOne campaign p).relevance_score ≤ 1 := by
  unfold extractOne
  split
  · exact score_gaming_relevance_range p
  · exact score_relevance_range p

theorem assignFinal_range_of_unit (w : Weights) (p : Prospect)
    (hw1 : 0 ≤ w.trust_gap) (hw2 : 0 ≤ w.reachability) (hw3 : 0 ≤ w.relevance)
    (hsum : w.trust_gap + w.reachability + w.relevance = 1)
    (h1 : 0 ≤ p.trust_gap_score ∧ p.trust_gap_score ≤ 1)
    (h2 : 0 ≤ p.reachability_score ∧ p.reachability_score ≤ 1)
    (h3 : 0 ≤ p.relevance_score ∧ p.relevance_score ≤ 1) :
    0 ≤ (assignFinal w p).final_score ∧ (assignFinal w p).final_score ≤ 1 := by
  unfold assignFinal
  simp only
  constructor
  · exact add_nonneg (add_nonneg (mul_nonneg h1.1 hw1) (mul_nonneg h2.1 hw2))
      (mul_nonneg h3.1 hw3)
  · have b1 : p.trust_gap_score * w.trust_gap ≤ w.trust_gap :=
      mul_le_of_le_one_left hw1 h1.2
    have b2 : p.reachability_score * w.reachability ≤ w.reachability :=
      mul_le_of_le_one_left hw2 h2.2
    have b3 : p.relevance_score * w.relevance ≤ w.relevance :=
      mul_le_of_le_one_left hw3 h3.2
    linarith

set_option maxRecDepth 10000

/-! ### Claim theorems -/

/-- C2: a candidate with signals self_taught and bio_mentions_open_to, empty
raw_data and category "Self-Taught Developer", scored under the default memex
campaign and ranked with the default memex weights, gets
trust_gap_score = 11/30 (= (0.8+0.3)/3 ≈ 0.3667), reachability_score = 1/5
(= 0.4/2), relevance_score = 9/10 and final_score = 97/200 (= 0.485). -/
theorem memex_example_exact_scores :
    (rank MEMEX_WEIGHTS "memex" (extract "memex"
        [mkProspect ["self_taught", "bio_mentions_open_to"]
          "Self-Taught Developer" RawData.empty])).map
      (fun p => (p.trust_gap_score, p.reachability_score, p.relevance_score,
        p.final_score))
      = [(11/30, 1/5, 9/10, 97/200)] := by
  simp [rank, extract, extractOne, assignFinal, effectiveWeights, mkProspect,
    RawData.empty, score_trust_gap, score_reachability, score_relevance, sumSignals,
    TRUST_GAP_SIGNALS, REACHABILITY_SIGNALS, HIGH_RELEVANCE_CATEGORIES, List.lookup,
    List.insertionSort, List.orderedInsert, MEMEX_WEIGHTS]
  norm_num

/-- C3: for every candidate (any signals, category, raw_data) and either
campaign, after scoring each of the three sub-scores lies in [0,1], and the
final score assigned from them with either campaign's default weight triple
(each summing to 1) also lies in [0,1]. -/
theorem scores_in_unit_interval (p : Prospect) (campaign : String) :
    (0 ≤ (extractOne campaign p).trust_gap_score
      ∧ (extractOne campaign p).trust_gap_score ≤ 1)
    ∧ (0 ≤ (extractOne campaign p).reachability_score
      ∧ (extractOne campaign p).reachability_score ≤ 1)
    ∧ (0 ≤ (extractOne campaign p).relevance_score
      ∧ (extractOne campaign p).relevance_score ≤ 1)
    ∧ (0 ≤ (assignFinal MEMEX_WEIGHTS (extractOne campaign p)).final_score
      ∧ (assignFinal MEMEX_WEIGHTS (extractOne campaign p)).final_score ≤ 1)
    ∧ (0 ≤ (assignFinal OPENARCADE_WEIGHTS (extractOne campaign p)).final_score
      ∧ (assignFinal OPENARCADE_WEIGHTS (extractOne campaign p)).final_score ≤ 1) := by
  refine ⟨extractOne_trust_gap_range campaign p,
    extractOne_reachability_range campaign p,
    extractOne_relevance_range campaign p, ?_, ?_⟩
  · exact assignFinal_range_of_unit MEMEX_WEIGHTS (extractOne campaign p)
      (by norm_num [MEMEX_WEIGHTS]) (by norm_num [MEMEX_WEIGHTS])
      (by norm_num [MEMEX_WEIGHTS]) (by norm_num [MEMEX_WEIGHTS])
      (extractOne_trust_gap_range campaign p)
      (extractOne_reachability_range campaign p)
      (extractOne_relevance_range campaign p)
  · exact assignFinal_range_of_unit OPENARCADE_WEIGHTS (extractOne campaign p)
      (by norm_num [OPENARCADE_WEIGHTS]) (by norm_num [OPENARCADE_WEIGHTS])
      (by norm_num [OPENARCADE_WEIGHTS]) (by norm_num [OPENARCADE_WEIGHTS])
      (extractOne_trust_gap_range campaign p)
      (extractOne_reachability_range campaign p)
      (extractOne_relevance_range campaign p)

/-- C4 counterexample: the claim says every dimension's table gives unknown
signals a fixed non-zero default, but `_score_reachability` (and
`_score_gaming_reachability`) use default 0.0: a signal absent from the
reachability table leaves the pre-clamp reachability sum unchanged. -/
theorem unknown_signal_reachability_counterexample :
    REACHABILITY_SIGNALS.lookup "untracked_tag" = Option.none
    ∧ GAMING_REACHABILITY_SIGNALS.lookup "untracked_tag" = Option.none
    ∧ sumSignals REACHABILITY_SIGNALS 0 ["untracked_tag"]
        = sumSignals REACHABILITY_SIGNALS 0 []
    ∧ sumSignals GAMING_REACHABILITY_SIGNALS 0 ["untracked_tag"]
        = sumSignals GAMING_REACHABILITY_SIGNALS 0 [] := by
  refine ⟨rfl, rfl, ?_, ?_⟩ <;>
    simp [sumSignals, REACHABILITY_SIGNALS, GAMING_REACHABILITY_SIGNALS, List.lookup]

/-- C4 amended: a signal absent from the table contributes the fixed non-zero
default only in the trust-gap dimension (0.1) and the gaming-influence
dimension (0.05), where it strictly increases the pre-clamp sum; in the two
reachability dimensions the default is 0.0, so an unknown signal leaves the
pre-clamp sum unchanged. -/
theorem unknown_signal_default_weights (sig : String) (l : List String)
    (h1 : TRUST_GAP_SIGNALS.lookup sig = Option.none)
    (h2 : GAMING_INFLUENCE_SIGNALS.lookup sig = Option.none)
    (h3 : REACHABILITY_SIGNALS.lookup sig = Option.none)
    (h4 : GAMING_REACHABILITY_SIGNALS.lookup sig = Option.none) :
    (sumSignals TRUST_GAP_SIGNALS 0.1 (sig :: l)
        = sumSignals TRUST_GAP_SIGNALS 0.1 l + 0.1
      ∧ sumSignals TRUST_GAP_SIGNALS 0.1 l < sumSignals TRUST_GAP_SIGNALS 0.1 (sig :: l))
    ∧ (sumSignals GAMING_INFLUENCE_SIGNALS 0.05 (sig :: l)
        = sumSignals GAMING_INFLUENCE_SIGNALS 0.05 l + 0.05
      ∧ sumSignals GAMING_INFLUENCE_SIGNALS 0.05 l
          < sumSignals GAMING_INFLUENCE_SIGNALS 0.05 (sig :: l))
    ∧ sumSignals REACHABILITY_SIGNALS 0 (sig :: l) = sumSignals REACHABILITY_SIGNALS 0 l
    ∧ sumSignals GAMING_REACHABILITY_SIGNALS 0 (sig :: l)
        = sumSignals GAMING_REACHABILITY_SIGNALS 0 l := by
  have e1 := sumSignals_cons TRUST_GAP_SIGNALS 0.1 sig l
  have e2 := sumSignals_cons GAMING_INFLUENCE_SIGNALS 0.05 sig l
  have e3 := sumSignals_cons REACHABILITY_SIGNALS 0 sig l
  have e4 := sumSignals_cons GAMING_REACHABILITY_SIGNALS 0 sig l
  rw [h1] at e1; rw [h2] at e2; rw [h3] at e3; rw [h4] at e4
  simp only [Option.getD_none] at e1 e2 e3 e4
  refine ⟨⟨by rw [e1]; ring, by rw [e1]; norm_num⟩,
    ⟨by rw [e2]; ring, by rw [e2]; norm_num⟩, by rw [e3]; ring, by rw [e4]; ring⟩

/-- Witness for `unknown_signal_default_weights`: the tag "untracked_tag"
is in none of the four tables, and the conclusions hold at it. -/
theorem unknown_signal_default_weights_witness :
    (sumSignals TRUST_GAP_SIGNALS 0.1 ["untracked_tag"]
        = sumSignals TRUST_GAP_SIGNALS 0.1 [] + 0.1
      ∧ sumSignals TRUST_GAP_SIGNALS 0.1 []
          < sumSignals TRUST_GAP_SIGNALS 0.1 ["untracked_tag"])
    ∧ (sumSignals GAMING_INFLUENCE_SIGNALS 0.05 ["untracked_tag"]
        = sumSignals GAMING_INFLUENCE_SIGNALS 0.05 [] + 0.05
      ∧ sumSignals GAMING_INFLUENCE_SIGNALS 0.05 []
          < sumSignals GAMING_INFLUENCE_SIGNALS 0.05 ["untracked_tag"])
    ∧ sumSignals REACHABILITY_SIGNALS 0 ["untracked_tag"]
        = sumSignals REACHABILITY_SIGNALS 0 []
    ∧ sumSignals GAMING_REACHABILITY_SIGNALS 0 ["untracked_tag"]
        = sumSignals GAMING_REACHABILITY_SIGNALS 0 [] :=
  unknown_signal_default_weights "untracked_tag" [] rfl rfl rfl rfl

/-- C5: evaluation showing the code double-counts a duplicated signal tag,
contrary to the spec's requirement that signals be treated as a set at the
scoring boundary: ["self_taught", "self_taught"] scores 8/15 on trust gap
while the deduplicated ["self_taught"] scores 4/15. -/
theorem duplicate_signal_double_counts :
    score_trust_gap (mkProspect ["self_taught", "self_taught"] "" RawData.empty) = 8/15
    ∧ score_trust_gap (mkProspect ["self_taught"] "" RawData.empty) = 4/15
    ∧ score_trust_gap (mkProspect ["self_taught", "self_taught"] "" RawData.empty)
        ≠ score_trust_gap (mkProspect ["self_taught"] "" RawData.empty) := by
  refine ⟨?_, ?_, ?_⟩ <;>
    (simp [score_trust_gap, sumSignals, TRUST_GAP_SIGNALS, List.lookup, mkProspect];
     norm_num)

theorem min_div_le_min_div (a b c : ℚ) (h : a ≤ b) (hc : 0 < c) :
    min (a / c) 1 ≤ min (b / c) 1 :=
  min_le_min (by exact (div_le_div_iff_of_pos_right hc).mpr h) le_rfl

/-- C8: adding a signal tag to a candidate's signal list never decreases the
trust-gap, reachability, gaming-influence or gaming-reachability sub-score
(every table weight and every default is non-negative); in particular it
never decreases for a previously-absent positive-weighted tag, as claimed. -/
theorem adding_signal_monotone (p : Prospect) (sig : String)
    (_habs : sig ∉ p.signals) :
    score_trust_gap p ≤ score_trust_gap { p with signals := sig :: p.signals }
    ∧ score_reachability p ≤ score_reachability { p with signals := sig :: p.signals }
    ∧ score_gaming_influence p
        ≤ score_gaming_influence { p with signals := sig :: p.signals }
    ∧ score_gaming_reachability p
        ≤ score_gaming_reachability { p with signals := sig :: p.signals } := by
  have w1 := lookup_getD_nonneg TRUST_GAP_SIGNALS 0.1 trust_gap_table_nonneg
    (by norm_num) sig
  have w2 := lookup_getD_nonneg REACHABILITY_SIGNALS 0 reachability_table_nonneg
    le_rfl sig
  have w3 := lookup_getD_nonneg GAMING_INFLUENCE_SIGNALS 0.05
    gaming_influence_table_nonneg (by norm_num) sig
  have w4 := lookup_getD_nonneg GAMING_REACHABILITY_SIGNALS 0
    gaming_reachability_table_nonneg le_rfl sig
  refine ⟨?_, ?_, ?_, ?_⟩
  · unfold score_trust_gap
    simp only [sumSignals_cons]
    exact min_div_le_min_div _ _ _ (by linarith) (by norm_num)
  · unfold score_reachability
    simp only [sumSignals_cons]
    exact min_div_le_min_div _ _ _ (by linarith) (by norm_num)
  · unfold score_gaming_influence
    simp only [sumSignals_cons]
    exact min_div_le_min_div _ _ _ (by linarith) (by norm_num)
  · unfold score_gaming_reachability
    simp only [sumSignals_cons]
    exact min_div_le_min_div _ _ _ (by linarith) (by norm_num)

/-- Witness for `adding_signal_monotone` at a concrete candidate and the
positively-weighted, previously-absent tag "self_taught". -/
theorem adding_signal_monotone_witness :
    score_trust_gap (mkProspect [] "" RawData.empty)
      ≤ score_trust_gap { mkProspect [] "" RawData.empty with signals := ["self_taught"] }
    ∧ score_reachability (mkProspect [] "" RawData.empty)
      ≤ score_reachability { mkProspect [] "" RawData.empty with signals := ["self_taught"] }
    ∧ score_gaming_influence (mkProspect [] "" RawData.empty)
      ≤ score_gaming_influence { mkProspect [] "" RawData.empty with signals := ["self_taught"] }
    ∧ score_gaming_reachability (mkProspect [] "" RawData.empty)
      ≤ score_gaming_reachability
          { mkProspect [] "" RawData.empty with signals := ["self_taught"] } :=
  adding_signal_monotone (mkProspect [] "" RawData.empty) "self_taught"
    (by simp [mkProspect])

theorem pyRound2_intCast (n : ℤ) : pyRound2 (n : ℚ) = n := by
  unfold pyRound2 roundHalfEven
  have h : ((n : ℚ) * 100) = ((n * 100 : ℤ) : ℚ) := by push_cast; ring
  rw [h, Int.floor_intCast]
  norm_num

/-- C1 counterexample: on the single-entry input [("d1", 10)] the code's
acceleration at index 0 is 10.0, not 0.0 (the prior velocity is taken as 0,
so acceleration equals velocity there). -/
theorem pva_index_zero_counterexample :
    (compute_pva [⟨"d1", 10⟩]).velocity = 10
    ∧ (compute_pva [⟨"d1", 10⟩]).acceleration = 10
    ∧ (compute_pva [⟨"d1", 10⟩]).acceleration ≠ 0 := by
  refine ⟨?_, ?_, ?_⟩ <;>
    (simp [compute_pva, pvaEntry, pvaVelocity, pvaPrevVelocity, sliceSum,
      pyRound2, roundHalfEven, List.range_succ]; norm_num)

/-- C1 amended: for every non-empty input, the entry at index 0 has
velocity = count[0] and acceleration = velocity = count[0] (the prior
velocity is 0, so acceleration at index 0 equals the velocity, not 0);
in particular [("d1", 10)] yields velocity 10.0 and acceleration 10.0. -/
theorem pva_index_zero_equals_velocity (d : DailyCount) (rest : List DailyCount) :
    ((compute_pva (d :: rest)).daily.headD ⟨"", 0, 0, 0, 0⟩
      = ⟨d.date, d.count, d.count, (d.count : ℚ), (d.count : ℚ)⟩)
    ∧ compute_pva [⟨"d1", 10⟩]
      = ⟨10, 10, 10, [⟨"d1", 10, 10, 10, 10⟩]⟩ := by
  constructor
  · simp [compute_pva, pvaEntry, pvaVelocity, pvaPrevVelocity, sliceSum,
      List.range_succ_eq_map, pyRound2_intCast]
  · simp [compute_pva, pvaEntry, pvaVelocity, pvaPrevVelocity, sliceSum,
      pyRound2, roundHalfEven, List.range_succ]
    norm_num

/-- C9: on [0,1] the histogram CASE expression agrees with the spec's
description — five equal-width buckets with half-open [lo, hi) boundaries
(0.2, 0.4, 0.6 and 0.8 each fall in the higher bucket) except that the last
bucket also contains exactly 1.0. -/
theorem score_bucket_matches_spec (q : ℚ) (h0 : 0 ≤ q) (h1 : q ≤ 1) :
    score_bucket_spec q = some (score_bucket q)
    ∧ score_bucket 0.2 = "0.2-0.4"
    ∧ score_bucket 0.4 = "0.4-0.6"
    ∧ score_bucket 0.6 = "0.6-0.8"
    ∧ score_bucket 0.8 = "0.8-1.0"
    ∧ score_bucket 1 = "0.8-1.0" := by
  refine ⟨?_, by norm_num [score_bucket], by norm_num [score_bucket],
    by norm_num [score_bucket], by norm_num [score_bucket], by norm_num [score_bucket]⟩
  unfold score_bucket score_bucket_spec
  split_ifs <;> simp_all

/-- Witness for `score_bucket_matches_spec` at the boundary score 0.2. -/
theorem score_bucket_matches_spec_witness :
    (0 : ℚ) ≤ 0.2 ∧ (0.2 : ℚ) ≤ 1
    ∧ (score_bucket_spec 0.2 = some (score_bucket 0.2)
      ∧ score_bucket 0.2 = "0.2-0.4"
      ∧ score_bucket 0.4 = "0.4-0.6"
      ∧ score_bucket 0.6 = "0.6-0.8"
      ∧ score_bucket 0.8 = "0.8-1.0"
      ∧ score_bucket 1 = "0.8-1.0") :=
  ⟨by norm_num, by norm_num,
    score_bucket_matches_spec 0.2 (by norm_num) (by norm_num)⟩

/-- C6 counterexample: a caller-supplied triple equal to the memex default is
NOT used verbatim for an openarcade run (the openarcade defaults are
substituted: a pure-trust-gap candidate gets final score 0.35, not 0.45);
and a weight override does not apply only to its own run: it is merged into
the shared ranker weights, and a later run with no override still uses it
(final score 0.9 instead of the default-weight 0.27). -/
theorem custom_weights_counterexample :
    effectiveWeights MEMEX_WEIGHTS "openarcade" = OPENARCADE_WEIGHTS
    ∧ OPENARCADE_WEIGHTS ≠ MEMEX_WEIGHTS
    ∧ (rank MEMEX_WEIGHTS "openarcade"
        [{ mkProspect [] "" RawData.empty with trust_gap_score := 1 }]).map
        Prospect.final_score = [7/20]
    ∧ (7 : ℚ)/20 ≠ 9/20
    ∧ (execute_pipeline MEMEX_WEIGHTS ⟨Option.none, Option.none, some 1⟩ []).2
        ≠ MEMEX_WEIGHTS
    ∧ (execute_pipeline
        (execute_pipeline MEMEX_WEIGHTS ⟨Option.none, Option.none, some 1⟩ []).2
        WeightOverrides.none
        [mkProspect [] "Self-Taught Developer" RawData.empty]).1.map
        Prospect.final_score = [9/10]
    ∧ (9 : ℚ)/10 ≠ 27/100 := by
  refine ⟨?_, ?_, ?_, by norm_num, ?_, ?_, by norm_num⟩
  · simp [effectiveWeights]
  · simp [OPENARCADE_WEIGHTS, MEMEX_WEIGHTS]
    norm_num
  · simp [rank, assignFinal, effectiveWeights, mkProspect, MEMEX_WEIGHTS,
      OPENARCADE_WEIGHTS, List.insertionSort, List.orderedInsert]
    norm_num
  · simp [execute_pipeline, updateWeights, WeightOverrides.none, MEMEX_WEIGHTS]
    norm_num
  · simp [execute_pipeline, updateWeights, WeightOverrides.none, rank, extract,
      extractOne, assignFinal, effectiveWeights, mkProspect, RawData.empty,
      score_trust_gap, score_reachability, score_relevance, sumSignals,
      TRUST_GAP_SIGNALS, REACHABILITY_SIGNALS, HIGH_RELEVANCE_CATEGORIES,
      List.lookup, List.insertionSort, List.orderedInsert, MEMEX_WEIGHTS]
    norm_num

/-- C6 amended: a caller-supplied weight triple is used verbatim for the
run's final-score computation unless the campaign is "openarcade" and the
triple equals the memex default (then the openarcade defaults are
substituted); and a truthy override is merged into the shared ranker's
weights, a mutation that persists beyond that run. -/
theorem custom_weights_amended (w : Weights) (campaign : String)
    (ps : List Prospect) (cur : Weights) (ov : WeightOverrides)
    (h : ¬(campaign = "openarcade" ∧ w = MEMEX_WEIGHTS))
    (h2 : ov ≠ WeightOverrides.none) :
    rank w campaign ps = (ps.map (assignFinal w)).insertionSort rankRel
    ∧ (execute_pipeline cur ov ps).2 = updateWeights cur ov := by
  constructor
  · unfold rank effectiveWeights
    rw [if_neg h]
  · unfold execute_pipeline
    simp [if_neg h2]

/-- Witness for `custom_weights_amended`: a memex run with a relevance
override. -/
theorem custom_weights_amended_witness :
    ¬("memex" = "openarcade" ∧ MEMEX_WEIGHTS = MEMEX_WEIGHTS)
    ∧ (⟨Option.none, Option.none, some 1⟩ : WeightOverrides) ≠ WeightOverrides.none
    ∧ (rank MEMEX_WEIGHTS "memex" []
        = (List.map (assignFinal MEMEX_WEIGHTS) []).insertionSort rankRel
      ∧ (execute_pipeline MEMEX_WEIGHTS ⟨Option.none, Option.none, some 1⟩ []).2
          = updateWeights MEMEX_WEIGHTS ⟨Option.none, Option.none, some 1⟩) :=
  ⟨by simp, by simp [WeightOverrides.none],
    custom_weights_amended MEMEX_WEIGHTS "memex" [] MEMEX_WEIGHTS
      ⟨Option.none, Option.none, some 1⟩ (by simp) (by simp [WeightOverrides.none])⟩

theorem filter_orderedInsert (q : ℚ) (p : Prospect) (l : List Prospect) :
    (List.orderedInsert rankRel p l).filter (fun x => decide (x.final_score = q))
      = if p.final_score = q
        then p :: l.filter (fun x => decide (x.final_score = q))
        else l.filter (fun x => decide (x.final_score = q)) := by
  induction l with
  | nil => simp [List.orderedInsert, List.filter_cons]
  | cons b l ih =>
      by_cases hr : rankRel p b
      · rw [List.orderedInsert, if_pos hr]
        by_cases hp : p.final_score = q <;>
          simp [List.filter_cons, hp]
      · rw [List.orderedInsert, if_neg hr]
        have hb : p.final_score < b.final_score := lt_of_not_le hr
        by_cases hp : p.final_score = q
        · have hbq : ¬(b.final_score = q) := by
            intro hbq; rw [hp, ← hbq] at hb; exact lt_irrefl _ hb
          simp [List.filter_cons, hbq, ih, hp]
        · by_cases hbq : b.final_score = q <;>
            simp [List.filter_cons, hbq, ih, hp]

theorem filter_insertionSort (q : ℚ) (l : List Prospect) :
    (l.insertionSort rankRel).filter (fun x => decide (x.final_score = q))
      = l.filter (fun x => decide (x.final_score = q)) := by
  induction l with
  | nil => rfl
  | cons p l ih =>
      rw [List.insertionSort, filter_orderedInsert]
      by_cases hp : p.final_score = q <;> simp [List.filter_cons, hp, ih]

theorem assignFinal_idem (w : Weights) (p : Prospect) :
    assignFinal w (assignFinal w p) = assignFinal w p := rfl

theorem assignFinal_map_rank (w : Weights) (campaign : String) (ps : List Prospect) :
    (rank w campaign ps).map (assignFinal (effectiveWeights w campaign))
      = rank w campaign ps := by
  have hmem : ∀ x ∈ rank w campaign ps,
      assignFinal (effectiveWeights w campaign) x = x := by
    intro x hx
    have hx2 : x ∈ ps.map (assignFinal (effectiveWeights w campaign)) :=
      (List.mem_insertionSort rankRel).mp hx
    rcases List.mem_map.mp hx2 with ⟨y, _, rfl⟩
    exact assignFinal_idem _ y
  calc (rank w campaign ps).map (assignFinal (effectiveWeights w campaign))
      = (rank w campaign ps).map id := List.map_congr_left hmem
    _ = rank w campaign ps := List.map_id _

/-- C7: ranking is sorted by descending final score (`rankRel p q` means
`q.final_score ≤ p.final_score`), stable — for every score level the
candidates at that final score appear in the same order as in the scored
input — and idempotent: ranking an already-ranked list changes nothing.
(Determinism is immediate: `rank` is a pure function of its arguments.) -/
theorem rank_sorted_stable_idempotent (w : Weights) (campaign : String)
    (ps : List Prospect) :
    List.Sorted rankRel (rank w campaign ps)
    ∧ (∀ q : ℚ, (rank w campaign ps).filter (fun p => decide (p.final_score = q))
        = (ps.map (assignFinal (effectiveWeights w campaign))).filter
            (fun p => decide (p.final_score = q)))
    ∧ rank w campaign (rank w campaign ps) = rank w campaign ps := by
  refine ⟨List.sorted_insertionSort rankRel _, fun q => filter_insertionSort q _, ?_⟩
  show ((rank w campaign ps).map (assignFinal (effectiveWeights w campaign))).insertionSort
      rankRel = rank w campaign ps
  rw [assignFinal_map_rank]
  exact List.Sorted.insertionSort_eq (List.sorted_insertionSort rankRel _)

/-- The fields of a prospect other than `final_score`. -/
def Prospect.frame (p : Prospect) :
    String × String × String × String × String × String × List String × RawData
      × ℚ × ℚ × ℚ × String × ℚ :=
  (p.source, p.username, p.display_name, p.profile_url, p.bio, p.category,
   p.signals, p.raw_data, p.trust_gap_score, p.reachability_score,
   p.relevance_score, p.outreach_message, p.fetched_at)

/-- C10: `rank` writes only `final_score`: modulo that one field the output
list is a permutation of the input list (same length, exactly the same
candidates), and the per-candidate score assignment leaves every other
field unchanged. -/
theorem rank_frame_permutation (w : Weights) (campaign : String)
    (ps : List Prospect) :
    ((rank w campaign ps).map Prospect.frame).Perm (ps.map Prospect.frame)
    ∧ (rank w campaign ps).length = ps.length
    ∧ ∀ p : Prospect,
        (assignFinal (effectiveWeights w campaign) p).frame = p.frame := by
  refine ⟨?_, ?_, fun p => rfl⟩
  · have h1 : (rank w campaign ps).Perm
        (ps.map (assignFinal (effectiveWeights w campaign))) :=
      List.perm_insertionSort rankRel _
    have h2 := h1.map Prospect.frame
    rw [List.map_map] at h2
    have h3 : ps.map (Prospect.frame ∘ assignFinal (effectiveWeights w campaign))
        = ps.map Prospect.frame := List.map_congr_left (fun p _ => rfl)
    rwa [h3] at h2
  · calc (rank w campaign ps).length
        = (ps.map (assignFinal (effectiveWeights w campaign))).length :=
          List.length_insertionSort rankRel _
      _ = ps.length := List.length_map _ _

end Prospector
